import Mathlib

/-!
Shallow embedding of the decoding core of MPD:

* src/src/decoder_thread.c — the decoder worker's decodeStart routine
  (stream opening, readiness loop, probe-and-dispatch, error classification,
  cleanup);
* src/src/output/plugins/AoOutputPlugin.cxx — the ao sink (option parsing,
  Open format negotiation and chunk bound, Play truncation);
* src/src/output/plugins/PipeOutputPlugin.cxx — the pipe sink's Play.

External collaborators of decodeStart (the input stream, the plugin
registry, the control-word written by the controller thread) are modelled
as an explicit environment record: the values decodeStart would observe
at each of its calls into them during one invocation.  The code of
decodeStart itself is translated statement by statement.
-/

/-- Values of the shared command word dc.command (DECODE_COMMAND_* in
decoder_control.h; the spec lists command as NONE, START, SEEK, STOP). -/
inductive DecodeCommand
  | none
  | start
  | seek
  | stop
  deriving DecidableEq, Repr

/-- Values of dc.state (DECODE_STATE_* in decoder_control.h; the spec lists
state as STOP, START, DECODE). -/
inductive DecodeState
  | stop
  | start
  | decode
  deriving DecidableEq, Repr

/-- Modelled from the spec: the decode error codes of decoder_control.h are
not part of the snippet.  The spec gives error as NONE, FILE or
UNKNOWN_TYPE; ret in decodeStart is an int initialised to
DECODE_ERROR_UNKTYPE and compared with < 0, so UNKTYPE must be a nonzero
non-negative code distinct from the others.  We fix the three codes as
distinct naturals embedded in Int. -/
def DECODE_ERROR_NOERROR : Int := 0

/-- Modelled from the spec: the UNKNOWN_TYPE sentinel, a positive code. -/
def DECODE_ERROR_UNKTYPE : Int := 10

/-- Modelled from the spec: the FILE error code, distinct and positive. -/
def DECODE_ERROR_FILE : Int := 20

/-- Modelled from the spec: decoder_api.h is not part of the snippet; the
spec describes stream_types as a bitmask with a file-capable bit and a
URL-capable bit.  We use the historical bit assignment. -/
def INPUT_PLUGIN_STREAM_FILE : Nat := 1

/-- Modelled from the spec: URL-capable bit of the stream_types bitmask. -/
def INPUT_PLUGIN_STREAM_URL : Nat := 2

/-- One decoder plugin as decodeStart observes it during a single
invocation.  The three function pointers of struct decoder_plugin are
modelled by the value each call would return on this song's stream:
none stands for a NULL pointer, some x for a non-NULL pointer whose call
returns x. -/
structure DecoderPlugin where
  stream_types : Nat
  try_decode : Option Bool
  stream_decode : Option Int
  file_decode : Option Int
  deriving DecidableEq, Repr

/-- Observable events of one decodeStart invocation, in program order:
input_stream_close calls and calls into plugin entry points
(try_decode with the value it returned, stream_decode / file_decode with
the value they returned). -/
inductive Ev
  | closeStream
  | invokeTry (b : Bool)
  | invokeStream (r : Int)
  | invokeFile (r : Int)
  deriving DecidableEq, Repr

/-- True on probe events (try_decode calls). -/
def isTry : Ev → Bool
  | Ev.invokeTry _ => true
  | _ => false

/-- True on decode entry-point invocations (stream_decode or file_decode). -/
def isInvoke : Ev → Bool
  | Ev.invokeStream _ => true
  | Ev.invokeFile _ => true
  | _ => false

/-- The decode entry-point invocations contained in a trace. -/
def invokedEvents (t : List Ev) : List Ev := t.filter isInvoke

/-- How many times input_stream_close was called in a trace. -/
def closeCount (t : List Ev) : Nat :=
  (t.filter (fun e => e = Ev.closeStream)).length

/-- One iteration of the readiness loop as the worker observes it: the
value of dc.command read at the top of the iteration, the return value of
input_stream_buffer, and the value of inStream.ready after that call. -/
structure BufferStep where
  cmd : DecodeCommand
  ret : Int
  readyAfter : Bool
  deriving DecidableEq, Repr

/-- Everything one decodeStart invocation observes from its environment:
whether the song is a file (song_is_file), whether input_stream_open
succeeds, the initial inStream.ready flag, the readiness-loop iterations,
the command word at the post-readiness STOP check, the ordered candidate
sequences produced by decoder_plugin_from_mime_type and
decoder_plugin_from_suffix, the result of decoder_plugin_from_name for
mp3, and the value of dc.error on entry (decodeStart never clears it). -/
structure DecodeEnv where
  is_file : Bool
  openOk : Bool
  readyInit : Bool
  steps : List BufferStep
  cmdAfterReady : DecodeCommand
  mimeCandidates : List DecoderPlugin
  suffixCandidates : List DecoderPlugin
  mp3Plugin : Option DecoderPlugin
  errorInit : Int
  deriving DecidableEq, Repr

/-- Exit condition of the readiness loop of decodeStart (lines 60-67):
while (!inStream.ready) with a command check and an
input_stream_buffer call per iteration.  hang models the loop running
out of environment steps while the stream is still not ready (the real
loop would keep blocking in input_stream_buffer). -/
inductive LoopExit
  | ready
  | cmdAbort (c : DecodeCommand)
  | bufErr
  | hang
  deriving DecidableEq, Repr

/-- The readiness loop, lines 60-67 of decoder_thread.c. -/
def readinessLoop : Bool → List BufferStep → LoopExit
  | true, _ => LoopExit.ready
  | false, [] => LoopExit.hang
  | false, s :: rest =>
    if s.cmd ≠ DecodeCommand.none then LoopExit.cmdAbort s.cmd
    else if s.ret < 0 then LoopExit.bufErr
    else readinessLoop s.readyAfter rest

/-- The URL-branch probe loop, lines 80-90 (MIME candidates) and 96-109
(suffix candidates) of decoder_thread.c:

  while (ret and (plugin = next candidate)) with
    skip if stream_decode == NULL;
    skip if the URL bit of stream_types is clear;
    skip if try_decode exists and returns false;
    ret = stream_decode(...); break;

Returns the resulting ret, whether a decode entry point was invoked
(equivalently: whether plugin is non-NULL after the loop), and the events
of the loop. -/
def urlTryPlugins : Int → List DecoderPlugin → Int × Bool × List Ev
  | ret, [] => (ret, false, [])
  | ret, p :: rest =>
    if ret = 0 then (ret, false, [])
    else
      match p.stream_decode with
      | Option.none => urlTryPlugins ret rest
      | Option.some r =>
        if p.stream_types &&& INPUT_PLUGIN_STREAM_URL = 0 then
          urlTryPlugins ret rest
        else
          match p.try_decode with
          | Option.some false =>
            match urlTryPlugins ret rest with
            | (r2, i2, evs) => (r2, i2, Ev.invokeTry false :: evs)
          | Option.some true => (r, true, [Ev.invokeTry true, Ev.invokeStream r])
          | Option.none => (r, true, [Ev.invokeStream r])

/-- The file-branch probe loop, lines 124-147 of decoder_thread.c.  The
capability check is embedded exactly as the source writes it:
if (!plugin->stream_types & INPUT_PLUGIN_STREAM_FILE) continue; — in C
the logical not binds first, so the test is
((stream_types == 0 ? 1 : 0) & INPUT_PLUGIN_STREAM_FILE) != 0.
When file_decode exists the stream is closed first (close_instream is
then cleared), otherwise stream_decode is used; a plugin with neither
entry point falls through to the next candidate.  Returns ret, whether a
decode entry point was invoked, the final value of (not close_instream),
and the events of the loop. -/
def fileTryPlugins : Int → List DecoderPlugin → Int × Bool × Bool × List Ev
  | ret, [] => (ret, false, false, [])
  | ret, p :: rest =>
    if ret = 0 then (ret, false, false, [])
    else if ((if p.stream_types = 0 then 1 else 0) &&& INPUT_PLUGIN_STREAM_FILE) ≠ 0 then
      fileTryPlugins ret rest
    else
      match p.try_decode with
      | Option.some false =>
        match fileTryPlugins ret rest with
        | (r2, i2, c2, evs) => (r2, i2, c2, Ev.invokeTry false :: evs)
      | Option.some true =>
        match p.file_decode with
        | Option.some r => (r, true, true, [Ev.invokeTry true, Ev.closeStream, Ev.invokeFile r])
        | Option.none =>
          match p.stream_decode with
          | Option.some r => (r, true, false, [Ev.invokeTry true, Ev.invokeStream r])
          | Option.none =>
            match fileTryPlugins ret rest with
            | (r2, i2, c2, evs) => (r2, i2, c2, Ev.invokeTry true :: evs)
      | Option.none =>
        match p.file_decode with
        | Option.some r => (r, true, true, [Ev.closeStream, Ev.invokeFile r])
        | Option.none =>
          match p.stream_decode with
          | Option.some r => (r, true, false, [Ev.invokeStream r])
          | Option.none => fileTryPlugins ret rest

/-- The URL branch of dispatch, lines 76-122 of decoder_thread.c: MIME
probe; suffix probe only if the MIME loop left plugin == NULL; mp3
fallback only if plugin is still NULL.  The fallback calls
plugin->stream_decode without a NULL check (the source comments that the
mp3 plugin is known to support streams); an environment whose mp3 plugin
lacks stream_decode would make the source crash, which the model returns
as none. -/
def urlDispatch (env : DecodeEnv) : Option (Int × List Ev) :=
  match urlTryPlugins DECODE_ERROR_UNKTYPE env.mimeCandidates with
  | (ret1, true, evs1) => some (ret1, evs1)
  | (ret1, false, evs1) =>
    match urlTryPlugins ret1 env.suffixCandidates with
    | (ret2, true, evs2) => some (ret2, evs1 ++ evs2)
    | (ret2, false, evs2) =>
      match env.mp3Plugin with
      | Option.none => some (ret2, evs1 ++ evs2)
      | Option.some p =>
        match p.stream_decode with
        | Option.none => none
        | Option.some r => some (r, evs1 ++ evs2 ++ [Ev.invokeStream r])

/-- Final control state and event trace of one decodeStart invocation.
state and command are the values of dc.state and dc.command at return,
error is the value of dc.error at return. -/
structure DSResult where
  state : DecodeState
  command : DecodeCommand
  error : Int
  trace : List Ev
  deriving DecidableEq, Repr

/-- The error classification block, lines 150-155 of decoder_thread.c.
dc.error is only written when ret is negative or the UNKTYPE sentinel;
otherwise it keeps its previous value err0. -/
def classify (ret err0 : Int) : Int :=
  if ret < 0 ∨ ret = DECODE_ERROR_UNKTYPE then
    if ret ≠ DECODE_ERROR_UNKTYPE then DECODE_ERROR_FILE else DECODE_ERROR_UNKTYPE
  else err0

/-- The goto stop path, lines 157-162: close the stream
(close_instream is still true on every goto stop before dispatch), then
set dc.state := STOP and dc.command := NONE; dc.error is not touched. -/
def stopClose (err0 : Int) : DSResult :=
  { state := DecodeState.stop, command := DecodeCommand.none,
    error := err0, trace := [Ev.closeStream] }

/-- The fall-through exit after dispatch: classification (lines 150-155),
then the stop label with the final close guarded by close_instream,
then state := STOP, command := NONE (lines 157-162). -/
def finishRun (ret : Int) (close_instream : Bool) (err0 : Int) (evs : List Ev) : DSResult :=
  { state := DecodeState.stop, command := DecodeCommand.none,
    error := classify ret err0,
    trace := if close_instream then evs ++ [Ev.closeStream] else evs }

/-- decodeStart, lines 30-163 of decoder_thread.c, as a function of the
environment of one invocation.  Unmodelled writes that no claim observes:
dc.current_song := dc.next_song (line 45), the transient
dc.state := DECODE_STATE_START / dc.command := NONE / notify_signal
announcement (lines 53-55), dc.seekable := inStream.seekable (line 70),
and decoder.plugin assignments.  Returns none when the run has no exit:
the readiness loop outlives its environment trace, or the mp3 fallback
dereferences a NULL stream_decode. -/
def decodeStart (env : DecodeEnv) : Option DSResult :=
  if env.openOk = false then
    some { state := DecodeState.stop, command := DecodeCommand.none,
           error := DECODE_ERROR_FILE, trace := [] }
  else
    match readinessLoop env.readyInit env.steps with
    | LoopExit.hang => none
    | LoopExit.cmdAbort _ => some (stopClose env.errorInit)
    | LoopExit.bufErr => some (stopClose env.errorInit)
    | LoopExit.ready =>
      if env.cmdAfterReady = DecodeCommand.stop then some (stopClose env.errorInit)
      else if env.is_file = false then
        match urlDispatch env with
        | Option.none => none
        | Option.some (ret, evs) => some (finishRun ret true env.errorInit evs)
      else
        match fileTryPlugins DECODE_ERROR_UNKTYPE env.suffixCandidates with
        | (ret, _, closedHere, evs) =>
          some (finishRun ret (!closedHere) env.errorInit evs)

/-- Whether the invocation reaches the dispatch step: the open succeeded,
the readiness loop exited with a ready stream, and the post-readiness
check did not observe STOP. -/
def dispatchReached (env : DecodeEnv) : Prop :=
  env.openOk = true ∧ readinessLoop env.readyInit env.steps = LoopExit.ready ∧
    env.cmdAfterReady ≠ DecodeCommand.stop

instance (env : DecodeEnv) : Decidable (dispatchReached env) := by
  unfold dispatchReached; infer_instance

/-- The plugin contract of the spec: a decode entry point returns 0 on
success and a negative value on a hard decode error; in particular it
never returns the positive UNKTYPE sentinel. -/
def resultsNonPos (p : DecoderPlugin) : Bool :=
  (match p.stream_decode with
   | Option.some r => decide (r ≤ 0)
   | Option.none => true) &&
  (match p.file_decode with
   | Option.some r => decide (r ≤ 0)
   | Option.none => true)

/-- resultsNonPos for every plugin the environment can hand to dispatch. -/
def envResultsNonPos (env : DecodeEnv) : Bool :=
  env.mimeCandidates.all resultsNonPos &&
  env.suffixCandidates.all resultsNonPos &&
  (match env.mp3Plugin with
   | Option.some p => resultsNonPos p
   | Option.none => true)

/-!  The ao and pipe output sinks. -/

/-- Modelled from the spec: SampleFormat of pcm/SampleFormat.hxx is not in
the snippet; the spec's audio format tuple has
sample_format in the set S8, S16, S24, S32, FLOAT. -/
inductive SampleFormat
  | s8
  | s16
  | s24
  | s32
  | float
  deriving DecidableEq, Repr

/-- Modelled from the spec: bytes per sample of each format
(frame_size = channels times bytes_per_sample); S24 is stored padded in
four bytes. -/
def sampleSize : SampleFormat → Nat
  | SampleFormat.s8 => 1
  | SampleFormat.s16 => 2
  | SampleFormat.s24 => 4
  | SampleFormat.s32 => 4
  | SampleFormat.float => 4

/-- The audio format record handed to a sink's Open. -/
structure AudioFormat where
  sample_rate : Nat
  channels : Nat
  format : SampleFormat
  deriving DecidableEq, Repr

/-- Modelled from the spec: AudioFormat::GetFrameSize of AudioFormat.hxx,
frame_size = channels times bytes_per_sample. -/
def AudioFormat.GetFrameSize (af : AudioFormat) : Nat :=
  af.channels * sampleSize af.format

/-- The sample-format switch of AoOutput::Open, lines 158-174 of
AoOutputPlugin.cxx: S8 and S16 are kept and mapped to 8/16 bits; every
other format is rewritten to S16 with 16 bits before the frame size is
computed.  Returns the (possibly rewritten) format and format.bits. -/
def aoOpenFormat (af : AudioFormat) : AudioFormat × Nat :=
  match af.format with
  | SampleFormat.s8 => (af, 8)
  | SampleFormat.s16 => (af, 16)
  | _ => ({ af with format := SampleFormat.s16 }, 16)

/-- The fields of one opened AoOutput that Play reads. -/
structure AoOutput where
  write_size : Nat
  frame_size : Nat
  max_size : Nat
  deriving DecidableEq, Repr

/-- AoOutput::Open, lines 153-190 of AoOutputPlugin.cxx: negotiate the
sample format, compute frame_size = audio_format.GetFrameSize() and
max_size = std::max(write_size / frame_size, 1) * frame_size.  The
ao_open_live call can fail (OpenError); that failure carries no data the
claims observe, so the computed sink state and the negotiated format are
returned directly. -/
def AoOutput.Open (write_size : Nat) (af : AudioFormat) : AoOutput × AudioFormat :=
  ({ write_size := write_size,
     frame_size := (aoOpenFormat af).1.GetFrameSize,
     max_size := max (write_size / (aoOpenFormat af).1.GetFrameSize) 1
       * (aoOpenFormat af).1.GetFrameSize },
   (aoOpenFormat af).1)

/-- The sink write error (WriteError of the spec): thrown via
MakeAoError / MakeErrno when the backend accepts nothing. -/
inductive PlayError
  | writeError
  deriving DecidableEq, Repr

/-- AoOutput::Play, lines 198-216 of AoOutputPlugin.cxx: the span is
truncated to max_size, handed to ao_play, and its (truncated) size is
returned; a zero return from ao_play throws.  srcLen is src.size() and
backendOk models ao_play returning nonzero.  The source asserts
src.size() % frame_size == 0 on entry. -/
def AoOutput.Play (o : AoOutput) (srcLen : Nat) (backendOk : Bool) : Except PlayError Nat :=
  if backendOk = false then Except.error PlayError.writeError
  else Except.ok (if srcLen > o.max_size then o.max_size else srcLen)

/-- PipeOutput::Play, lines 67-75 of PipeOutputPlugin.cxx:
nbytes = fwrite(src.data(), 1, src.size(), fh); zero throws, otherwise
nbytes is returned unchanged.  fwriteReturn models the fwrite result
(any count up to the requested srcLen); the requested length does not
otherwise enter the computation. -/
def PipeOutput.Play (_srcLen : Nat) (fwriteReturn : Nat) : Except PlayError Nat :=
  if fwriteReturn = 0 then Except.error PlayError.writeError
  else Except.ok fwriteReturn

/-!  Option parsing of the ao sink constructor. -/

/-- The whitespace test of util/StringStrip.hxx (IsWhitespaceOrNull):
every character with code at most 0x20. -/
def isWS (c : Char) : Bool := c.toNat ≤ 32

/-- StripLeft: drop leading whitespace-or-null characters. -/
def stripLeft : List Char → List Char
  | [] => []
  | c :: rest => if isWS c then stripLeft rest else c :: rest

/-- StripRight: drop trailing whitespace-or-null characters. -/
def stripRight (l : List Char) : List Char := (stripLeft l.reverse).reverse

/-- Strip of util/StringStrip.hxx: strip both ends. -/
def strip (l : List Char) : List Char := stripRight (stripLeft l)

/-- Split of util/StringSplit.hxx at the first separator occurrence:
none models the no-separator case, in which the second half of the C++
result has a null data pointer. -/
def splitAtFirst (sep : Char) : List Char → Option (List Char × List Char)
  | [] => none
  | c :: rest =>
    if c = sep then some ([], rest)
    else (splitAtFirst sep rest).map (fun q => (c :: q.1, q.2))

/-- IterableSplitString: the fields of the string between occurrences of
the separator, empty fields included. -/
def splitFields (sep : Char) : List Char → List (List Char)
  | [] => [[]]
  | c :: rest =>
    if c = sep then [] :: splitFields sep rest
    else
      match splitFields sep rest with
      | [] => [[c]]
      | f :: fs => (c :: f) :: fs

/-- One iteration of the options loop in the AoOutput constructor, lines
136-144 of AoOutputPlugin.cxx: auto [n, v] = Split(Strip(i), '='); throw
when n is empty or v has a null data pointer; otherwise the pair (n, v)
is handed to ao_append_option. -/
def parsePair (i : List Char) : Option (List Char × List Char) :=
  match splitAtFirst '=' (strip i) with
  | Option.none => none
  | Option.some (n, v) => if n = [] then none else some (n, v)

/-- The whole options loop: split the configured value on semicolons and
parse each field; none models the constructor throwing. -/
def parseOptions (value : List Char) : Option (List (List Char × List Char)) :=
  (splitFields ';' value).mapM parsePair

/-!  Helper lemmas about traces. -/

theorem closeCount_append (a b : List Ev) :
    closeCount (a ++ b) = closeCount a + closeCount b := by
  simp [closeCount, List.filter_append]

theorem invokedEvents_append (a b : List Ev) :
    invokedEvents (a ++ b) = invokedEvents a ++ invokedEvents b := by
  simp [invokedEvents, List.filter_append]

theorem allTry_closeCount {t : List Ev} (h : t.all isTry = true) :
    closeCount t = 0 := by
  induction t with
  | nil => rfl
  | cons e rest ih =>
    simp only [List.all_cons, Bool.and_eq_true] at h
    cases e with
    | invokeTry b =>
      simpa [closeCount, List.filter_cons] using ih h.2
    | closeStream => simp [isTry] at h
    | invokeStream r => simp [isTry] at h
    | invokeFile r => simp [isTry] at h

theorem allTry_invokedEvents {t : List Ev} (h : t.all isTry = true) :
    invokedEvents t = [] := by
  induction t with
  | nil => rfl
  | cons e rest ih =>
    simp only [List.all_cons, Bool.and_eq_true] at h
    cases e with
    | invokeTry b =>
      simpa [invokedEvents, List.filter_cons, isInvoke] using ih h.2
    | closeStream => simp [isTry] at h
    | invokeStream r => simp [isTry] at h
    | invokeFile r => simp [isTry] at h

theorem allTry_mem {t : List Ev} (h : t.all isTry = true) {e : Ev}
    (he : e ∈ t) : ∃ b, e = Ev.invokeTry b := by
  have hx := List.all_eq_true.mp h e he
  cases e with
  | invokeTry b => exact ⟨b, rfl⟩
  | closeStream => simp [isTry] at hx
  | invokeStream r => simp [isTry] at hx
  | invokeFile r => simp [isTry] at hx

/-!  Shape of the probe-loop results. -/

/-- Shape of urlTryPlugins: when no plugin was invoked, ret is unchanged
and the loop only emitted probe events; when a plugin was invoked, the
events are probe events followed by exactly the one stream_decode
invocation, whose result is ret, and the invoked plugin is a candidate. -/
theorem urlTry_spec (ret : Int) (l : List DecoderPlugin) :
    (∀ r evs, urlTryPlugins ret l = (r, false, evs) →
      r = ret ∧ evs.all isTry = true) ∧
    (∀ r evs, urlTryPlugins ret l = (r, true, evs) →
      ∃ t p, p ∈ l ∧ p.stream_decode = some r ∧
        evs = t ++ [Ev.invokeStream r] ∧ t.all isTry = true) := by
  induction l with
  | nil =>
    constructor
    · intro r evs h
      simp only [urlTryPlugins, Prod.mk.injEq] at h
      exact ⟨h.1.symm, by simp [← h.2.2]⟩
    · intro r evs h
      simp only [urlTryPlugins, Prod.mk.injEq] at h
      exact absurd h.2.1 (by simp)
  | cons p rest ih =>
    obtain ⟨ihF, ihT⟩ := ih
    by_cases h0 : ret = 0
    · constructor
      · intro r evs h
        simp only [urlTryPlugins, if_pos h0, Prod.mk.injEq] at h
        exact ⟨h.1.symm, by simp [← h.2.2]⟩
      · intro r evs h
        simp only [urlTryPlugins, if_pos h0, Prod.mk.injEq] at h
        exact absurd h.2.1 (by simp)
    · rcases hsd : p.stream_decode with _ | r0
      · constructor
        · intro r evs h
          simp only [urlTryPlugins, if_neg h0, hsd] at h
          exact ihF r evs h
        · intro r evs h
          simp only [urlTryPlugins, if_neg h0, hsd] at h
          obtain ⟨t, q, hq, hq2, hq3, hq4⟩ := ihT r evs h
          exact ⟨t, q, List.mem_cons_of_mem p hq, hq2, hq3, hq4⟩
      · by_cases hurl : p.stream_types &&& INPUT_PLUGIN_STREAM_URL = 0
        · constructor
          · intro r evs h
            simp only [urlTryPlugins, if_neg h0, hsd, if_pos hurl] at h
            exact ihF r evs h
          · intro r evs h
            simp only [urlTryPlugins, if_neg h0, hsd, if_pos hurl] at h
            obtain ⟨t, q, hq, hq2, hq3, hq4⟩ := ihT r evs h
            exact ⟨t, q, List.mem_cons_of_mem p hq, hq2, hq3, hq4⟩
        · rcases htd : p.try_decode with _ | b0
          · constructor
            · intro r evs h
              simp only [urlTryPlugins, if_neg h0, hsd, if_neg hurl, htd,
                Prod.mk.injEq] at h
              exact absurd h.2.1 (by simp)
            · intro r evs h
              simp only [urlTryPlugins, if_neg h0, hsd, if_neg hurl, htd,
                Prod.mk.injEq] at h
              refine ⟨[], p, List.mem_cons_self p rest, ?_, ?_, rfl⟩
              · rw [hsd, h.1]
              · simp [← h.2.2, h.1]
          · cases b0
            · rcases hrec : urlTryPlugins ret rest with ⟨r2, i2, evs2⟩
              constructor
              · intro r evs h
                simp only [urlTryPlugins, if_neg h0, hsd, if_neg hurl, htd,
                  hrec, Prod.mk.injEq] at h
                obtain ⟨h1, h2, h3⟩ := h
                rw [h1, h2] at hrec
                obtain ⟨hA, hB⟩ := ihF r evs2 hrec
                refine ⟨hA, ?_⟩
                rw [← h3]
                simp [isTry, hB]
              · intro r evs h
                simp only [urlTryPlugins, if_neg h0, hsd, if_neg hurl, htd,
                  hrec, Prod.mk.injEq] at h
                obtain ⟨h1, h2, h3⟩ := h
                rw [h1, h2] at hrec
                obtain ⟨t, q, hq, hq2, hq3, hq4⟩ := ihT r evs2 hrec
                refine ⟨Ev.invokeTry false :: t, q, List.mem_cons_of_mem p hq,
                  hq2, ?_, by simp [isTry, hq4]⟩
                rw [← h3, hq3]
                rfl
            · constructor
              · intro r evs h
                simp only [urlTryPlugins, if_neg h0, hsd, if_neg hurl, htd,
                  Prod.mk.injEq] at h
                exact absurd h.2.1 (by simp)
              · intro r evs h
                simp only [urlTryPlugins, if_neg h0, hsd, if_neg hurl, htd,
                  Prod.mk.injEq] at h
                refine ⟨[Ev.invokeTry true], p, List.mem_cons_self p rest, ?_, ?_, by simp [isTry]⟩
                · rw [hsd, h.1]
                · simp [← h.2.2, h.1]

/-- Shape of fileTryPlugins: when no plugin was invoked, ret is unchanged,
close_instream is untouched and only probe events were emitted; when a
plugin was invoked, the events are probe events followed either by the
close-then-file_decode pair (and close_instream was cleared) or by one
stream_decode invocation, in both cases with the invocation result as
ret and the invoked plugin among the candidates. -/
theorem fileTry_spec (ret : Int) (l : List DecoderPlugin) :
    (∀ r c evs, fileTryPlugins ret l = (r, false, c, evs) →
      r = ret ∧ c = false ∧ evs.all isTry = true) ∧
    (∀ r c evs, fileTryPlugins ret l = (r, true, c, evs) →
      ∃ t, t.all isTry = true ∧
        ((c = true ∧ evs = t ++ [Ev.closeStream, Ev.invokeFile r] ∧
            ∃ p, p ∈ l ∧ p.file_decode = some r) ∨
         (c = false ∧ evs = t ++ [Ev.invokeStream r] ∧
            ∃ p, p ∈ l ∧ p.stream_decode = some r))) := by
  induction l with
  | nil =>
    constructor
    · intro r c evs h
      simp only [fileTryPlugins, Prod.mk.injEq] at h
      exact ⟨h.1.symm, h.2.2.1.symm, by simp [← h.2.2.2]⟩
    · intro r c evs h
      simp only [fileTryPlugins, Prod.mk.injEq] at h
      exact absurd h.2.1 (by simp)
  | cons p rest ih =>
    obtain ⟨ihF, ihT⟩ := ih
    by_cases h0 : ret = 0
    · constructor
      · intro r c evs h
        simp only [fileTryPlugins, if_pos h0, Prod.mk.injEq] at h
        exact ⟨h.1.symm, h.2.2.1.symm, by simp [← h.2.2.2]⟩
      · intro r c evs h
        simp only [fileTryPlugins, if_pos h0, Prod.mk.injEq] at h
        exact absurd h.2.1 (by simp)
    · by_cases hcap : ((if p.stream_types = 0 then 1 else 0) &&& INPUT_PLUGIN_STREAM_FILE) ≠ 0
      · constructor
        · intro r c evs h
          simp only [fileTryPlugins, if_neg h0, if_pos hcap] at h
          exact ihF r c evs h
        · intro r c evs h
          simp only [fileTryPlugins, if_neg h0, if_pos hcap] at h
          obtain ⟨t, ht, hd⟩ := ihT r c evs h
          refine ⟨t, ht, ?_⟩
          rcases hd with ⟨hc, he, q, hq, hq2⟩ | ⟨hc, he, q, hq, hq2⟩
          · exact Or.inl ⟨hc, he, q, List.mem_cons_of_mem p hq, hq2⟩
          · exact Or.inr ⟨hc, he, q, List.mem_cons_of_mem p hq, hq2⟩
      · rcases htd : p.try_decode with _ | b0
        · rcases hfd : p.file_decode with _ | rf
          · rcases hsd : p.stream_decode with _ | rs
            · constructor
              · intro r c evs h
                simp only [fileTryPlugins, if_neg h0, if_neg hcap, htd, hfd, hsd] at h
                exact ihF r c evs h
              · intro r c evs h
                simp only [fileTryPlugins, if_neg h0, if_neg hcap, htd, hfd, hsd] at h
                obtain ⟨t, ht, hd⟩ := ihT r c evs h
                refine ⟨t, ht, ?_⟩
                rcases hd with ⟨hc, he, q, hq, hq2⟩ | ⟨hc, he, q, hq, hq2⟩
                · exact Or.inl ⟨hc, he, q, List.mem_cons_of_mem p hq, hq2⟩
                · exact Or.inr ⟨hc, he, q, List.mem_cons_of_mem p hq, hq2⟩
            · constructor
              · intro r c evs h
                simp only [fileTryPlugins, if_neg h0, if_neg hcap, htd, hfd, hsd,
                  Prod.mk.injEq] at h
                exact absurd h.2.1 (by simp)
              · intro r c evs h
                simp only [fileTryPlugins, if_neg h0, if_neg hcap, htd, hfd, hsd,
                  Prod.mk.injEq] at h
                refine ⟨[], by simp, Or.inr ⟨h.2.2.1.symm, ?_, p,
                  List.mem_cons_self p rest, ?_⟩⟩
                · simp [← h.2.2.2, h.1]
                · rw [hsd, h.1]
          · constructor
            · intro r c evs h
              simp only [fileTryPlugins, if_neg h0, if_neg hcap, htd, hfd,
                Prod.mk.injEq] at h
              exact absurd h.2.1 (by simp)
            · intro r c evs h
              simp only [fileTryPlugins, if_neg h0, if_neg hcap, htd, hfd,
                Prod.mk.injEq] at h
              refine ⟨[], by simp, Or.inl ⟨h.2.2.1.symm, ?_, p,
                List.mem_cons_self p rest, ?_⟩⟩
              · simp [← h.2.2.2, h.1]
              · rw [hfd, h.1]
        · cases b0
          · rcases hrec : fileTryPlugins ret rest with ⟨r2, i2, c2, evs2⟩
            constructor
            · intro r c evs h
              simp only [fileTryPlugins, if_neg h0, if_neg hcap, htd, hrec,
                Prod.mk.injEq] at h
              obtain ⟨h1, h2, h3, h4⟩ := h
              rw [h1, h2, h3] at hrec
              obtain ⟨hA, hB, hC⟩ := ihF r c evs2 hrec
              refine ⟨hA, hB, ?_⟩
              rw [← h4]
              simp [isTry, hC]
            · intro r c evs h
              simp only [fileTryPlugins, if_neg h0, if_neg hcap, htd, hrec,
                Prod.mk.injEq] at h
              obtain ⟨h1, h2, h3, h4⟩ := h
              rw [h1, h2, h3] at hrec
              obtain ⟨t, ht, hd⟩ := ihT r c evs2 hrec
              refine ⟨Ev.invokeTry false :: t, by simp [isTry, ht], ?_⟩
              rcases hd with ⟨hc, he, q, hq, hq2⟩ | ⟨hc, he, q, hq, hq2⟩
              · refine Or.inl ⟨hc, ?_, q, List.mem_cons_of_mem p hq, hq2⟩
                rw [← h4, he]; rfl
              · refine Or.inr ⟨hc, ?_, q, List.mem_cons_of_mem p hq, hq2⟩
                rw [← h4, he]; rfl
          · rcases hfd : p.file_decode with _ | rf
            · rcases hsd : p.stream_decode with _ | rs
              · rcases hrec : fileTryPlugins ret rest with ⟨r2, i2, c2, evs2⟩
                constructor
                · intro r c evs h
                  simp only [fileTryPlugins, if_neg h0, if_neg hcap, htd, hfd, hsd,
                    hrec, Prod.mk.injEq] at h
                  obtain ⟨h1, h2, h3, h4⟩ := h
                  rw [h1, h2, h3] at hrec
                  obtain ⟨hA, hB, hC⟩ := ihF r c evs2 hrec
                  refine ⟨hA, hB, ?_⟩
                  rw [← h4]
                  simp [isTry, hC]
                · intro r c evs h
                  simp only [fileTryPlugins, if_neg h0, if_neg hcap, htd, hfd, hsd,
                    hrec, Prod.mk.injEq] at h
                  obtain ⟨h1, h2, h3, h4⟩ := h
                  rw [h1, h2, h3] at hrec
                  obtain ⟨t, ht, hd⟩ := ihT r c evs2 hrec
                  refine ⟨Ev.invokeTry true :: t, by simp [isTry, ht], ?_⟩
                  rcases hd with ⟨hc, he, q, hq, hq2⟩ | ⟨hc, he, q, hq, hq2⟩
                  · refine Or.inl ⟨hc, ?_, q, List.mem_cons_of_mem p hq, hq2⟩
                    rw [← h4, he]; rfl
                  · refine Or.inr ⟨hc, ?_, q, List.mem_cons_of_mem p hq, hq2⟩
                    rw [← h4, he]; rfl
              · constructor
                · intro r c evs h
                  simp only [fileTryPlugins, if_neg h0, if_neg hcap, htd, hfd, hsd,
                    Prod.mk.injEq] at h
                  exact absurd h.2.1 (by simp)
                · intro r c evs h
                  simp only [fileTryPlugins, if_neg h0, if_neg hcap, htd, hfd, hsd,
                    Prod.mk.injEq] at h
                  refine ⟨[Ev.invokeTry true], by simp [isTry],
                    Or.inr ⟨h.2.2.1.symm, ?_, p, List.mem_cons_self p rest, ?_⟩⟩
                  · simp [← h.2.2.2, h.1]
                  · rw [hsd, h.1]
            · constructor
              · intro r c evs h
                simp only [fileTryPlugins, if_neg h0, if_neg hcap, htd, hfd,
                  Prod.mk.injEq] at h
                exact absurd h.2.1 (by simp)
              · intro r c evs h
                simp only [fileTryPlugins, if_neg h0, if_neg hcap, htd, hfd,
                  Prod.mk.injEq] at h
                refine ⟨[Ev.invokeTry true], by simp [isTry],
                  Or.inl ⟨h.2.2.1.symm, ?_, p, List.mem_cons_self p rest, ?_⟩⟩
                · simp [← h.2.2.2, h.1]
                · rw [hfd, h.1]

/-- Close events per fileTryPlugins run: exactly one when close_instream
was cleared for a file_decode hand-off, none otherwise. -/
theorem fileTry_closeCount (ret : Int) (l : List DecoderPlugin) (r : Int)
    (inv closed : Bool) (evs : List Ev)
    (h : fileTryPlugins ret l = (r, inv, closed, evs)) :
    closeCount evs = (if closed then 1 else 0) := by
  cases inv
  · obtain ⟨_, hc, hall⟩ := (fileTry_spec ret l).1 r closed evs h
    rw [hc]
    simpa using allTry_closeCount hall
  · obtain ⟨t, ht, hd⟩ := (fileTry_spec ret l).2 r closed evs h
    rcases hd with ⟨hc, he, _⟩ | ⟨hc, he, _⟩
    · rw [hc, he, closeCount_append, allTry_closeCount ht]
      simp [closeCount, List.filter]
    · rw [hc, he, closeCount_append, allTry_closeCount ht]
      simp [closeCount, List.filter]

/-- Dispatch summary for the URL branch: no close event is emitted, and
either nothing was invoked and ret is still the UNKTYPE sentinel, or the
trace ends with the single stream_decode invocation whose result is ret
and whose plugin came from the MIME candidates, the suffix candidates or
the mp3 fallback. -/
theorem urlDispatch_spec (env : DecodeEnv) (ret : Int) (evs : List Ev)
    (h : urlDispatch env = some (ret, evs)) :
    closeCount evs = 0 ∧
    ((invokedEvents evs = [] ∧ ret = DECODE_ERROR_UNKTYPE) ∨
     (∃ t, evs = t ++ [Ev.invokeStream ret] ∧ t.all isTry = true ∧
        ∃ p, (p ∈ env.mimeCandidates ∨ p ∈ env.suffixCandidates ∨
              env.mp3Plugin = some p) ∧ p.stream_decode = some ret)) := by
  unfold urlDispatch at h
  rcases h1 : urlTryPlugins DECODE_ERROR_UNKTYPE env.mimeCandidates with ⟨r1, i1, evs1⟩
  cases i1
  · rcases h2 : urlTryPlugins r1 env.suffixCandidates with ⟨r2, i2, evs2⟩
    obtain ⟨hA1, hB1⟩ := (urlTry_spec DECODE_ERROR_UNKTYPE env.mimeCandidates).1 r1 evs1 h1
    cases i2
    · obtain ⟨hA2, hB2⟩ := (urlTry_spec r1 env.suffixCandidates).1 r2 evs2 h2
      rcases hmp : env.mp3Plugin with _ | p
      · simp only [h1, h2, hmp, Option.some.injEq, Prod.mk.injEq] at h
        obtain ⟨hret, hevs⟩ := h
        constructor
        · rw [← hevs, closeCount_append, allTry_closeCount hB1, allTry_closeCount hB2]
        · refine Or.inl ⟨?_, ?_⟩
          · rw [← hevs, invokedEvents_append, allTry_invokedEvents hB1,
              allTry_invokedEvents hB2]
            rfl
          · rw [← hret, hA2, hA1]
      · rcases hps : p.stream_decode with _ | rp
        · simp only [h1, h2, hmp, hps] at h
          exact Option.noConfusion h
        · simp only [h1, h2, hmp, hps, Option.some.injEq, Prod.mk.injEq] at h
          obtain ⟨hret, hevs⟩ := h
          constructor
          · rw [← hevs, closeCount_append, closeCount_append,
              allTry_closeCount hB1, allTry_closeCount hB2]
            simp [closeCount, List.filter]
          · refine Or.inr ⟨evs1 ++ evs2, ?_, ?_, p, Or.inr (Or.inr rfl), ?_⟩
            · rw [← hevs, hret]
            · rw [List.all_append, hB1, hB2]
              rfl
            · rw [hps, hret]
    · obtain ⟨t, q, hq, hq2, hq3, hq4⟩ := (urlTry_spec r1 env.suffixCandidates).2 r2 evs2 h2
      simp only [h1, h2, Option.some.injEq, Prod.mk.injEq] at h
      obtain ⟨hret, hevs⟩ := h
      constructor
      · rw [← hevs, closeCount_append, allTry_closeCount hB1, hq3,
          closeCount_append, allTry_closeCount hq4]
        simp [closeCount, List.filter]
      · refine Or.inr ⟨evs1 ++ t, ?_, ?_, q, Or.inr (Or.inl hq), ?_⟩
        · rw [← hevs, hq3, List.append_assoc, hret]
        · rw [List.all_append, hB1, hq4]
          rfl
        · rw [hq2, hret]
  · obtain ⟨t, q, hq, hq2, hq3, hq4⟩ :=
      (urlTry_spec DECODE_ERROR_UNKTYPE env.mimeCandidates).2 r1 evs1 h1
    simp only [h1, Option.some.injEq, Prod.mk.injEq] at h
    obtain ⟨hret, hevs⟩ := h
    constructor
    · rw [← hevs, hq3, closeCount_append, allTry_closeCount hq4]
      simp [closeCount, List.filter]
    · refine Or.inr ⟨t, ?_, hq4, q, Or.inl hq, ?_⟩
      · rw [← hevs, hq3, hret]
      · rw [hq2, hret]

/-- Exhaustive case analysis of one decodeStart run that returned:
open failure; abort before dispatch (command observed, buffer error, or
STOP at the post-readiness check); URL dispatch; file dispatch. -/
theorem decodeStart_cases (env : DecodeEnv) (r : DSResult)
    (h : decodeStart env = some r) :
    (env.openOk = false ∧
       r = { state := DecodeState.stop, command := DecodeCommand.none,
             error := DECODE_ERROR_FILE, trace := [] }) ∨
    (env.openOk = true ∧ ¬ dispatchReached env ∧ r = stopClose env.errorInit) ∨
    (env.openOk = true ∧ dispatchReached env ∧ env.is_file = false ∧
       ∃ ret evs, urlDispatch env = some (ret, evs) ∧
         r = finishRun ret true env.errorInit evs) ∨
    (env.openOk = true ∧ dispatchReached env ∧ env.is_file = true ∧
       ∃ ret inv closed evs,
         fileTryPlugins DECODE_ERROR_UNKTYPE env.suffixCandidates
           = (ret, inv, closed, evs) ∧
         r = finishRun ret (!closed) env.errorInit evs) := by
  unfold decodeStart at h
  by_cases hop : env.openOk = false
  · rw [if_pos hop] at h
    simp only [Option.some.injEq] at h
    exact Or.inl ⟨hop, h.symm⟩
  · have hop2 : env.openOk = true := by
      cases henv : env.openOk
      · exact absurd henv hop
      · rfl
    rw [if_neg hop] at h
    rcases hL : readinessLoop env.readyInit env.steps with _ | c | _ | _
    · by_cases hcmd : env.cmdAfterReady = DecodeCommand.stop
      · simp only [hL, if_pos hcmd, Option.some.injEq] at h
        refine Or.inr (Or.inl ⟨hop2, ?_, h.symm⟩)
        intro hd
        exact hd.2.2 hcmd
      · have hdr : dispatchReached env := ⟨hop2, hL, hcmd⟩
        by_cases hf : env.is_file = false
        · rcases hu : urlDispatch env with _ | ⟨ret, evs⟩
          · simp only [hL, if_neg hcmd, if_pos hf, hu] at h
            exact Option.noConfusion h
          · simp only [hL, if_neg hcmd, if_pos hf, hu, Option.some.injEq] at h
            exact Or.inr (Or.inr (Or.inl ⟨hop2, hdr, hf, ret, evs, rfl, h.symm⟩))
        · have hf2 : env.is_file = true := by
            cases henv : env.is_file
            · exact absurd henv hf
            · rfl
          rcases hft : fileTryPlugins DECODE_ERROR_UNKTYPE env.suffixCandidates
            with ⟨ret, inv, closed, evs⟩
          simp only [hL, if_neg hcmd, if_neg hf, hft, Option.some.injEq] at h
          exact Or.inr (Or.inr (Or.inr
            ⟨hop2, hdr, hf2, ret, inv, closed, evs, rfl, h.symm⟩))
    · simp only [hL, Option.some.injEq] at h
      refine Or.inr (Or.inl ⟨hop2, ?_, h.symm⟩)
      intro hd
      have hx := hd.2.1
      rw [hL] at hx
      exact LoopExit.noConfusion hx
    · simp only [hL, Option.some.injEq] at h
      refine Or.inr (Or.inl ⟨hop2, ?_, h.symm⟩)
      intro hd
      have hx := hd.2.1
      rw [hL] at hx
      exact LoopExit.noConfusion hx
    · simp only [hL] at h
      exact Option.noConfusion h

/-!  Small facts about classification and the plugin contract. -/

/-- With a NOERROR value on entry, the classification block leaves UNKTYPE
in dc.error exactly when ret is the UNKTYPE sentinel. -/
theorem classify_unk_iff (ret : Int) :
    classify ret DECODE_ERROR_NOERROR = DECODE_ERROR_UNKTYPE ↔
      ret = DECODE_ERROR_UNKTYPE := by
  unfold classify DECODE_ERROR_NOERROR DECODE_ERROR_UNKTYPE DECODE_ERROR_FILE
  by_cases h1 : ret = 10
  · simp [h1]
  · by_cases h2 : ret < 0 <;> simp [h1, h2]

theorem resultsNonPos_stream {p : DecoderPlugin} (hp : resultsNonPos p = true)
    {r : Int} (hr : p.stream_decode = some r) : r ≤ 0 := by
  unfold resultsNonPos at hp
  rw [hr] at hp
  simp only [Bool.and_eq_true, decide_eq_true_eq] at hp
  exact hp.1

theorem resultsNonPos_file {p : DecoderPlugin} (hp : resultsNonPos p = true)
    {r : Int} (hr : p.file_decode = some r) : r ≤ 0 := by
  unfold resultsNonPos at hp
  rw [hr] at hp
  simp only [Bool.and_eq_true, decide_eq_true_eq] at hp
  exact hp.2

/-- Under the plugin contract, every plugin dispatch can invoke in the
URL branch returns a non-positive result. -/
theorem envNonPos_stream (env : DecodeEnv) (hp : envResultsNonPos env = true)
    {p : DecoderPlugin}
    (hmem : p ∈ env.mimeCandidates ∨ p ∈ env.suffixCandidates ∨
            env.mp3Plugin = some p)
    {r : Int} (hr : p.stream_decode = some r) : r ≤ 0 := by
  unfold envResultsNonPos at hp
  simp only [Bool.and_eq_true] at hp
  rcases hmem with hm | hm | hm
  · exact resultsNonPos_stream (List.all_eq_true.mp hp.1.1 p hm) hr
  · exact resultsNonPos_stream (List.all_eq_true.mp hp.1.2 p hm) hr
  · rw [hm] at hp
    exact resultsNonPos_stream hp.2 hr

theorem envNonPos_file (env : DecodeEnv) (hp : envResultsNonPos env = true)
    {p : DecoderPlugin} (hmem : p ∈ env.suffixCandidates)
    {r : Int} (hr : p.file_decode = some r) : r ≤ 0 := by
  unfold envResultsNonPos at hp
  simp only [Bool.and_eq_true] at hp
  exact resultsNonPos_file (List.all_eq_true.mp hp.1.2 p hmem) hr

/-- Decode invocations recorded by finishRun are those of the dispatch
events; the final close contributes none. -/
theorem invokedEvents_finishRun (ret : Int) (ci : Bool) (e0 : Int)
    (evs : List Ev) :
    invokedEvents (finishRun ret ci e0 evs).trace = invokedEvents evs := by
  cases ci <;>
    simp [finishRun, invokedEvents_append, invokedEvents, List.filter, isInvoke]

/-!  Concrete environments used by witnesses and counterexamples. -/

/-- A file-capable plugin with a file_decode entry point that succeeds
(scenario S1 of the spec). -/
def pluginFileOk : DecoderPlugin :=
  { stream_types := INPUT_PLUGIN_STREAM_FILE, try_decode := Option.none,
    stream_decode := Option.none, file_decode := some 0 }

/-- A URL-only plugin: the file-capable bit is clear, stream_decode
succeeds, no file_decode. -/
def pluginUrlOnly : DecoderPlugin :=
  { stream_types := INPUT_PLUGIN_STREAM_URL, try_decode := Option.none,
    stream_decode := some 0, file_decode := Option.none }

/-- A plugin with an all-zero stream_types bitmask. -/
def pluginNoTypes : DecoderPlugin :=
  { stream_types := 0, try_decode := Option.none,
    stream_decode := some 0, file_decode := some 0 }

/-- File song, immediately ready stream, one matching file plugin. -/
def envS1 : DecodeEnv :=
  { is_file := true, openOk := true, readyInit := true, steps := [],
    cmdAfterReady := DecodeCommand.none, mimeCandidates := [],
    suffixCandidates := [pluginFileOk], mp3Plugin := Option.none,
    errorInit := DECODE_ERROR_NOERROR }

/-- A run whose input_stream_open fails. -/
def envOpenFail : DecodeEnv :=
  { is_file := false, openOk := false, readyInit := false, steps := [],
    cmdAfterReady := DecodeCommand.none, mimeCandidates := [],
    suffixCandidates := [], mp3Plugin := Option.none,
    errorInit := DECODE_ERROR_NOERROR }

/-- URL song whose readiness loop hits an input_stream_buffer error. -/
def envBufErr : DecodeEnv :=
  { is_file := false, openOk := true, readyInit := false,
    steps := [{ cmd := DecodeCommand.none, ret := -1, readyAfter := false }],
    cmdAfterReady := DecodeCommand.none, mimeCandidates := [],
    suffixCandidates := [], mp3Plugin := Option.none,
    errorInit := DECODE_ERROR_NOERROR }

/-- URL song for which no candidate exists at all and the mp3 fallback is
not registered. -/
def envUrlNoPlugins : DecodeEnv :=
  { is_file := false, openOk := true, readyInit := true, steps := [],
    cmdAfterReady := DecodeCommand.none, mimeCandidates := [],
    suffixCandidates := [], mp3Plugin := Option.none,
    errorInit := DECODE_ERROR_NOERROR }

/-- File song whose only suffix candidate is the URL-only plugin. -/
def envFileUrlOnlyPlugin : DecodeEnv :=
  { is_file := true, openOk := true, readyInit := true, steps := [],
    cmdAfterReady := DecodeCommand.none, mimeCandidates := [],
    suffixCandidates := [pluginUrlOnly], mp3Plugin := Option.none,
    errorInit := DECODE_ERROR_NOERROR }

/-- File song whose only suffix candidate has stream_types = 0. -/
def envFileNoTypes : DecodeEnv :=
  { is_file := true, openOk := true, readyInit := true, steps := [],
    cmdAfterReady := DecodeCommand.none, mimeCandidates := [],
    suffixCandidates := [pluginNoTypes], mp3Plugin := Option.none,
    errorInit := DECODE_ERROR_NOERROR }

/-- URL song cancelled by STOP during the readiness loop. -/
def envStopDuringReadiness : DecodeEnv :=
  { is_file := false, openOk := true, readyInit := false,
    steps := [{ cmd := DecodeCommand.stop, ret := 0, readyAfter := false }],
    cmdAfterReady := DecodeCommand.none, mimeCandidates := [],
    suffixCandidates := [], mp3Plugin := Option.none,
    errorInit := DECODE_ERROR_NOERROR }

/-- Result of decodeStart on envS1. -/
def resS1 : DSResult :=
  { state := DecodeState.stop, command := DecodeCommand.none,
    error := DECODE_ERROR_NOERROR,
    trace := [Ev.closeStream, Ev.invokeFile 0] }

/-- Result of decodeStart on envUrlNoPlugins. -/
def resUrlNoPlugins : DSResult :=
  { state := DecodeState.stop, command := DecodeCommand.none,
    error := DECODE_ERROR_UNKTYPE, trace := [Ev.closeStream] }

/-- Result of decodeStart on an aborted run with a NOERROR entry value. -/
def resAborted : DSResult :=
  { state := DecodeState.stop, command := DecodeCommand.none,
    error := DECODE_ERROR_NOERROR, trace := [Ev.closeStream] }

/-!  Claims about decodeStart. -/

/-- C1: every decodeStart invocation that returns leaves state = STOP and
command = NONE, and closes the input stream exactly once whenever the
open succeeded (the single pre-file_decode close counting as the one
close when ownership of the path was handed to a file-mode decoder); a
failed open performs no close. -/
theorem C1_decodeStart_cleanup (env : DecodeEnv) (r : DSResult)
    (h : decodeStart env = some r) :
    r.state = DecodeState.stop ∧ r.command = DecodeCommand.none ∧
    (env.openOk = true → closeCount r.trace = 1) ∧
    (env.openOk = false → closeCount r.trace = 0) := by
  rcases decodeStart_cases env r h with
    ⟨hop, hr⟩ | ⟨hop, _, hr⟩ | ⟨hop, _, _, ret, evs, hu, hr⟩ |
    ⟨hop, _, _, ret, inv, closed, evs, hft, hr⟩
  · subst hr
    refine ⟨rfl, rfl, ?_, fun _ => rfl⟩
    intro ht
    rw [hop] at ht
    exact Bool.noConfusion ht
  · subst hr
    refine ⟨rfl, rfl, fun _ => rfl, ?_⟩
    intro hfalse
    rw [hop] at hfalse
    exact Bool.noConfusion hfalse
  · subst hr
    obtain ⟨hc0, _⟩ := urlDispatch_spec env ret evs hu
    refine ⟨rfl, rfl, ?_, ?_⟩
    · intro _
      have htr : (finishRun ret true env.errorInit evs).trace
          = evs ++ [Ev.closeStream] := rfl
      rw [htr, closeCount_append, hc0]
      rfl
    · intro hfalse
      rw [hop] at hfalse
      exact Bool.noConfusion hfalse
  · subst hr
    have hcc := fileTry_closeCount _ _ _ _ _ _ hft
    refine ⟨rfl, rfl, ?_, ?_⟩
    · intro _
      cases closed
      · have hc0 : closeCount evs = 0 := by simpa using hcc
        have htr : (finishRun ret (!false) env.errorInit evs).trace
            = evs ++ [Ev.closeStream] := rfl
        rw [htr, closeCount_append, hc0]
        rfl
      · have hc1 : closeCount evs = 1 := by simpa using hcc
        have htr : (finishRun ret (!true) env.errorInit evs).trace = evs := rfl
        rw [htr, hc1]
    · intro hfalse
      rw [hop] at hfalse
      exact Bool.noConfusion hfalse

/-- Witness for C1, instantiated on a file run that transfers ownership
to a file-mode decoder. -/
theorem C1_decodeStart_cleanup_witness :
    resS1.state = DecodeState.stop ∧ resS1.command = DecodeCommand.none ∧
    (envS1.openOk = true → closeCount resS1.trace = 1) ∧
    (envS1.openOk = false → closeCount resS1.trace = 0) :=
  C1_decodeStart_cleanup envS1 resS1 (by decide)

/-- C2 counterexample: on a run whose input_stream_open fails, no decode
entry point is invoked and yet the error field is FILE, not UNKNOWN_TYPE;
so over all decodeStart invocations, error = UNKNOWN_TYPE is not
equivalent to the absence of a plugin invocation. -/
theorem C2_counterexample :
    (decodeStart envOpenFail).map
        (fun q => (q.error, invokedEvents q.trace)) =
      some (DECODE_ERROR_FILE, []) ∧
    DECODE_ERROR_FILE ≠ DECODE_ERROR_UNKTYPE := by decide

/-- C2 amended: under the plugin contract (decode results non-positive)
and a NOERROR entry value, a returning decodeStart run ends with
error = UNKNOWN_TYPE iff the run reached dispatch and no decode entry
point was invoked there (every candidate skipped; mp3 fallback absent). -/
theorem C2_unknown_type_iff (env : DecodeEnv) (r : DSResult)
    (h : decodeStart env = some r)
    (h0 : env.errorInit = DECODE_ERROR_NOERROR)
    (hp : envResultsNonPos env = true) :
    r.error = DECODE_ERROR_UNKTYPE ↔
      (dispatchReached env ∧ invokedEvents r.trace = []) := by
  rcases decodeStart_cases env r h with
    ⟨hop, hr⟩ | ⟨hop, hnd, hr⟩ | ⟨hop, hdr, hf, ret, evs, hu, hr⟩ |
    ⟨hop, hdr, hf, ret, inv, closed, evs, hft, hr⟩
  · subst hr
    constructor
    · intro he
      exact absurd he (by decide)
    · intro hd
      obtain ⟨ho, _, _⟩ := hd.1
      rw [hop] at ho
      exact Bool.noConfusion ho
  · subst hr
    constructor
    · intro he
      simp only [stopClose] at he
      rw [h0] at he
      exact absurd he (by decide)
    · intro hd
      exact absurd hd.1 hnd
  · subst hr
    have herr : (finishRun ret true env.errorInit evs).error
        = classify ret env.errorInit := rfl
    rw [herr, h0, invokedEvents_finishRun, classify_unk_iff]
    obtain ⟨_, hd⟩ := urlDispatch_spec env ret evs hu
    rcases hd with ⟨hinv, hretU⟩ | ⟨t, hevs, _, p, hmem, hps⟩
    · exact ⟨fun _ => ⟨hdr, hinv⟩, fun _ => hretU⟩
    · have hle : ret ≤ 0 := envNonPos_stream env hp hmem hps
      constructor
      · intro he
        rw [he] at hle
        exact absurd hle (by decide)
      · intro hd2
        rw [hevs, invokedEvents_append] at hd2
        have : invokedEvents [Ev.invokeStream ret] = [Ev.invokeStream ret] := rfl
        rw [this] at hd2
        exact absurd hd2.2 (by simp)
  · subst hr
    have herr : (finishRun ret (!closed) env.errorInit evs).error
        = classify ret env.errorInit := by
      cases closed <;> rfl
    rw [herr, h0, invokedEvents_finishRun, classify_unk_iff]
    cases inv
    · obtain ⟨hret, _, hall⟩ :=
        (fileTry_spec DECODE_ERROR_UNKTYPE env.suffixCandidates).1
          ret closed evs hft
      exact ⟨fun _ => ⟨hdr, allTry_invokedEvents hall⟩, fun _ => hret⟩
    · obtain ⟨t, _, hd⟩ :=
        (fileTry_spec DECODE_ERROR_UNKTYPE env.suffixCandidates).2
          ret closed evs hft
      rcases hd with ⟨_, hevs, p, hpm, hpr⟩ | ⟨_, hevs, p, hpm, hpr⟩
      · have hle : ret ≤ 0 := envNonPos_file env hp hpm hpr
        constructor
        · intro he
          rw [he] at hle
          exact absurd hle (by decide)
        · intro hd2
          rw [hevs, invokedEvents_append] at hd2
          have : invokedEvents [Ev.closeStream, Ev.invokeFile ret]
              = [Ev.invokeFile ret] := rfl
          rw [this] at hd2
          exact absurd hd2.2 (by simp)
      · have hle : ret ≤ 0 :=
          envNonPos_stream env hp (Or.inr (Or.inl hpm)) hpr
        constructor
        · intro he
          rw [he] at hle
          exact absurd hle (by decide)
        · intro hd2
          rw [hevs, invokedEvents_append] at hd2
          have : invokedEvents [Ev.invokeStream ret] = [Ev.invokeStream ret] := rfl
          rw [this] at hd2
          exact absurd hd2.2 (by simp)

/-- Witness for C2 amended, on a ready URL run with no candidates and no
mp3 fallback: error ends as UNKNOWN_TYPE and nothing was invoked. -/
theorem C2_unknown_type_iff_witness :
    resUrlNoPlugins.error = DECODE_ERROR_UNKTYPE ↔
      (dispatchReached envUrlNoPlugins ∧
       invokedEvents resUrlNoPlugins.trace = []) :=
  C2_unknown_type_iff envUrlNoPlugins resUrlNoPlugins
    (by decide) (by decide) (by decide)

/-- C3 counterexample: a run whose readiness loop hits a negative
input_stream_buffer return aborts, but the error field keeps its NOERROR
entry value — it is not set to FILE (the goto stop jumps past the
classification block). -/
theorem C3_counterexample :
    readinessLoop envBufErr.readyInit envBufErr.steps = LoopExit.bufErr ∧
    (decodeStart envBufErr).map
        (fun q => (q.error, invokedEvents q.trace, closeCount q.trace)) =
      some (DECODE_ERROR_NOERROR, [], 1) ∧
    DECODE_ERROR_NOERROR ≠ DECODE_ERROR_FILE := by decide

/-- C3 amended: on a buffer error during readiness the worker does abort
the decode — no plugin is invoked, the stream is closed once, state and
command are reset — but the error field is left unchanged rather than
set to FILE. -/
theorem C3_buffer_error_aborts (env : DecodeEnv) (r : DSResult)
    (h : decodeStart env = some r) (hop : env.openOk = true)
    (hb : readinessLoop env.readyInit env.steps = LoopExit.bufErr) :
    r.error = env.errorInit ∧ invokedEvents r.trace = [] ∧
    closeCount r.trace = 1 ∧ r.state = DecodeState.stop ∧
    r.command = DecodeCommand.none := by
  rcases decodeStart_cases env r h with
    ⟨hopf, _⟩ | ⟨_, _, hr⟩ | ⟨_, hdr, _, _, _, _, _⟩ |
    ⟨_, hdr, _, _, _, _, _, _, _⟩
  · rw [hop] at hopf
    exact Bool.noConfusion hopf
  · subst hr
    exact ⟨rfl, rfl, rfl, rfl, rfl⟩
  · have hx := hdr.2.1
    rw [hb] at hx
    exact LoopExit.noConfusion hx
  · have hx := hdr.2.1
    rw [hb] at hx
    exact LoopExit.noConfusion hx

/-- Witness for C3 amended at the concrete buffer-error environment. -/
theorem C3_buffer_error_aborts_witness :
    resAborted.error = envBufErr.errorInit ∧
    invokedEvents resAborted.trace = [] ∧
    closeCount resAborted.trace = 1 ∧
    resAborted.state = DecodeState.stop ∧
    resAborted.command = DecodeCommand.none :=
  C3_buffer_error_aborts envBufErr resAborted (by decide) (by decide)
    (by decide)

/-- C4: the file-branch capability test of line 127, taken verbatim from
the source, does not skip a suffix candidate that lacks the file-capable
bit: a URL-only plugin (stream_types with only the URL bit) is invoked
via stream_decode, and only a plugin whose whole bitmask is zero is
skipped (leaving UNKNOWN_TYPE). -/
theorem C4_file_capability_check_bug :
    pluginUrlOnly.stream_types &&& INPUT_PLUGIN_STREAM_FILE = 0 ∧
    (decodeStart envFileUrlOnlyPlugin).map
        (fun q => invokedEvents q.trace) = some [Ev.invokeStream 0] ∧
    pluginNoTypes.stream_types = 0 ∧
    (decodeStart envFileNoTypes).map
        (fun q => (q.error, invokedEvents q.trace)) =
      some (DECODE_ERROR_UNKTYPE, []) := by decide

/-- C5: on any returning decodeStart run, a file_decode invocation is
preceded by the single close of the input stream (and no close follows),
while a stream_decode invocation is followed by the single close. -/
theorem C5_close_ordering (env : DecodeEnv) (r : DSResult)
    (h : decodeStart env = some r) :
    (∀ x : Int, Ev.invokeFile x ∈ r.trace →
      ∃ t, r.trace = t ++ [Ev.closeStream, Ev.invokeFile x] ∧
        closeCount t = 0) ∧
    (∀ x : Int, Ev.invokeStream x ∈ r.trace →
      ∃ t, r.trace = t ++ [Ev.invokeStream x, Ev.closeStream] ∧
        closeCount t = 0) := by
  rcases decodeStart_cases env r h with
    ⟨_, hr⟩ | ⟨_, _, hr⟩ | ⟨_, _, _, ret, evs, hu, hr⟩ |
    ⟨_, _, _, ret, inv, closed, evs, hft, hr⟩
  · subst hr
    exact ⟨fun x hx => absurd hx (by simp), fun x hx => absurd hx (by simp)⟩
  · subst hr
    exact ⟨fun x hx => absurd hx (by simp [stopClose]),
           fun x hx => absurd hx (by simp [stopClose])⟩
  · subst hr
    have htr : (finishRun ret true env.errorInit evs).trace
        = evs ++ [Ev.closeStream] := rfl
    obtain ⟨hc0, hd⟩ := urlDispatch_spec env ret evs hu
    rw [htr]
    constructor
    · intro x hx
      rcases List.mem_append.mp hx with hx | hx
      · rcases hd with ⟨hinv, _⟩ | ⟨t, hevs, ht, _⟩
        · have hni := List.filter_eq_nil_iff.mp hinv (Ev.invokeFile x) hx
          exact absurd rfl hni
        · rw [hevs] at hx
          rcases List.mem_append.mp hx with hx2 | hx2
          · obtain ⟨b, hb⟩ := allTry_mem ht hx2
            exact Ev.noConfusion hb
          · exact absurd hx2 (by simp)
      · exact absurd hx (by simp)
    · intro x hx
      rcases List.mem_append.mp hx with hx | hx
      · rcases hd with ⟨hinv, _⟩ | ⟨t, hevs, ht, _⟩
        · have hni := List.filter_eq_nil_iff.mp hinv (Ev.invokeStream x) hx
          exact absurd rfl hni
        · rw [hevs] at hx
          rcases List.mem_append.mp hx with hx2 | hx2
          · obtain ⟨b, hb⟩ := allTry_mem ht hx2
            exact Ev.noConfusion hb
          · have hxr : x = ret := by simpa using hx2
            refine ⟨t, ?_, allTry_closeCount ht⟩
            rw [hevs, hxr, List.append_assoc]
            rfl
      · exact absurd hx (by simp)
  · subst hr
    cases inv
    · obtain ⟨_, hcf, hall⟩ :=
        (fileTry_spec DECODE_ERROR_UNKTYPE env.suffixCandidates).1
          ret closed evs hft
      subst hcf
      have htr : (finishRun ret (!false) env.errorInit evs).trace
          = evs ++ [Ev.closeStream] := rfl
      rw [htr]
      constructor
      · intro x hx
        rcases List.mem_append.mp hx with hx | hx
        · obtain ⟨b, hb⟩ := allTry_mem hall hx
          exact Ev.noConfusion hb
        · exact absurd hx (by simp)
      · intro x hx
        rcases List.mem_append.mp hx with hx | hx
        · obtain ⟨b, hb⟩ := allTry_mem hall hx
          exact Ev.noConfusion hb
        · exact absurd hx (by simp)
    · obtain ⟨t, ht, hd⟩ :=
        (fileTry_spec DECODE_ERROR_UNKTYPE env.suffixCandidates).2
          ret closed evs hft
      rcases hd with ⟨hc, hevs, _⟩ | ⟨hc, hevs, _⟩
      · subst hc
        have htr : (finishRun ret (!true) env.errorInit evs).trace = evs := rfl
        rw [htr, hevs]
        constructor
        · intro x hx
          rcases List.mem_append.mp hx with hx | hx
          · obtain ⟨b, hb⟩ := allTry_mem ht hx
            exact Ev.noConfusion hb
          · have hxr : x = ret := by simpa using hx
            exact ⟨t, by rw [hxr], allTry_closeCount ht⟩
        · intro x hx
          rcases List.mem_append.mp hx with hx | hx
          · obtain ⟨b, hb⟩ := allTry_mem ht hx
            exact Ev.noConfusion hb
          · exact absurd hx (by simp)
      · subst hc
        have htr : (finishRun ret (!false) env.errorInit evs).trace
            = evs ++ [Ev.closeStream] := rfl
        rw [htr, hevs]
        constructor
        · intro x hx
          rcases List.mem_append.mp hx with hx | hx
          · rcases List.mem_append.mp hx with hx2 | hx2
            · obtain ⟨b, hb⟩ := allTry_mem ht hx2
              exact Ev.noConfusion hb
            · exact absurd hx2 (by simp)
          · exact absurd hx (by simp)
        · intro x hx
          rcases List.mem_append.mp hx with hx | hx
          · rcases List.mem_append.mp hx with hx2 | hx2
            · obtain ⟨b, hb⟩ := allTry_mem ht hx2
              exact Ev.noConfusion hb
            · have hxr : x = ret := by simpa using hx2
              refine ⟨t, ?_, allTry_closeCount ht⟩
              rw [hxr, List.append_assoc]
              rfl
          · exact absurd hx (by simp)

/-- Witness for C5 on the file run envS1: the hand-off close immediately
precedes the file_decode invocation. -/
theorem C5_close_ordering_witness :
    ∃ t, resS1.trace = t ++ [Ev.closeStream, Ev.invokeFile 0] ∧
      closeCount t = 0 :=
  (C5_close_ordering envS1 resS1 (by decide)).1 0 (by decide)

/-- C6: a STOP observed at a pre-dispatch suspension point (during the
readiness loop or at the post-readiness check) cancels silently: no
plugin invoked, stream closed once, error left at NOERROR, state and
command reset. -/
theorem C6_stop_cancel (env : DecodeEnv) (r : DSResult)
    (h : decodeStart env = some r) (hop : env.openOk = true)
    (h0 : env.errorInit = DECODE_ERROR_NOERROR)
    (hstop : readinessLoop env.readyInit env.steps
        = LoopExit.cmdAbort DecodeCommand.stop ∨
      (readinessLoop env.readyInit env.steps = LoopExit.ready ∧
       env.cmdAfterReady = DecodeCommand.stop)) :
    r.error = DECODE_ERROR_NOERROR ∧ invokedEvents r.trace = [] ∧
    closeCount r.trace = 1 ∧ r.state = DecodeState.stop ∧
    r.command = DecodeCommand.none := by
  rcases decodeStart_cases env r h with
    ⟨hopf, _⟩ | ⟨_, _, hr⟩ | ⟨_, hdr, _, _, _, _, _⟩ |
    ⟨_, hdr, _, _, _, _, _, _, _⟩
  · rw [hop] at hopf
    exact Bool.noConfusion hopf
  · subst hr
    refine ⟨?_, rfl, rfl, rfl, rfl⟩
    simpa [stopClose] using h0
  · rcases hstop with hs | ⟨_, hsc⟩
    · have hx := hdr.2.1
      rw [hs] at hx
      exact LoopExit.noConfusion hx
    · exact absurd hsc hdr.2.2
  · rcases hstop with hs | ⟨_, hsc⟩
    · have hx := hdr.2.1
      rw [hs] at hx
      exact LoopExit.noConfusion hx
    · exact absurd hsc hdr.2.2

/-- Witness for C6 at a run that observes STOP inside the readiness
loop. -/
theorem C6_stop_cancel_witness :
    resAborted.error = DECODE_ERROR_NOERROR ∧
    invokedEvents resAborted.trace = [] ∧
    closeCount resAborted.trace = 1 ∧
    resAborted.state = DecodeState.stop ∧
    resAborted.command = DecodeCommand.none :=
  C6_stop_cancel envStopDuringReadiness resAborted (by decide) (by decide)
    (by decide) (Or.inl (by decide))

/-!  Claims about the output sinks. -/

/-- Truncation of Play equals the minimum. -/
theorem trunc_eq_min (a b : Nat) : (if a > b then b else a) = min a b := by
  rw [Nat.min_def]
  by_cases h : a ≤ b
  · rw [if_pos h, if_neg (by omega)]
  · rw [if_neg h, if_pos (by omega)]

/-- The S16 stereo format of scenario S6. -/
def afS16Stereo : AudioFormat :=
  { sample_rate := 44100, channels := 2, format := SampleFormat.s16 }

/-- C7 counterexample: against a sink contract frame size of 4 (S16
stereo), the pipe sink's Play of an aligned 4-byte span returns the raw
fwrite count 3, which is not a multiple of the frame size (and no
WriteError is raised since the backend accepted bytes). -/
theorem C7_counterexample :
    AudioFormat.GetFrameSize afS16Stereo = 4 ∧ (4 : Nat) ∣ 4 ∧
    PipeOutput.Play 4 3 = Except.ok 3 ∧ (3 : Nat) ≤ 4 ∧
    ¬ (4 ∣ (3 : Nat)) := by
  refine ⟨by decide, ⟨1, by decide⟩, rfl, by decide, ?_⟩
  intro hdvd
  obtain ⟨k, hk⟩ := hdvd
  omega

/-- C7 amended: for aligned input of length L, both sinks raise
WriteError exactly when the backend accepts nothing; any returned count
is at most L; for the ao sink the count is additionally a multiple of
the negotiated frame size, while the pipe sink propagates the raw fwrite
count, which need not be frame-aligned. -/
theorem C7_play_contract (w : Nat) (af : AudioFormat) (L fw : Nat)
    (ok : Bool) (hfw : fw ≤ L)
    (hL : (AoOutput.Open w af).1.frame_size ∣ L) :
    (∀ n, (AoOutput.Open w af).1.Play L ok = Except.ok n →
        n ≤ L ∧ (AoOutput.Open w af).1.frame_size ∣ n) ∧
    ((AoOutput.Open w af).1.Play L ok = Except.error PlayError.writeError
        ↔ ok = false) ∧
    (∀ n, PipeOutput.Play L fw = Except.ok n → n ≤ L) ∧
    (PipeOutput.Play L fw = Except.error PlayError.writeError ↔ fw = 0) := by
  have hms : (AoOutput.Open w af).1.frame_size ∣ (AoOutput.Open w af).1.max_size := by
    simp only [AoOutput.Open]
    exact dvd_mul_left _ _
  refine ⟨?_, ?_, ?_, ?_⟩
  · intro n hn
    cases ok
    · exact absurd hn (by simp [AoOutput.Play])
    · have hrfl : (AoOutput.Open w af).1.Play L true
          = Except.ok (if L > (AoOutput.Open w af).1.max_size
              then (AoOutput.Open w af).1.max_size else L) := rfl
      rw [hrfl] at hn
      have hn2 := Except.ok.inj hn
      by_cases hgt : L > (AoOutput.Open w af).1.max_size
      · rw [if_pos hgt] at hn2
        refine ⟨by omega, ?_⟩
        rw [← hn2]
        exact hms
      · rw [if_neg hgt] at hn2
        refine ⟨by omega, ?_⟩
        rw [← hn2]
        exact hL
  · cases ok
    · simp [AoOutput.Play]
    · simp [AoOutput.Play]
  · intro n hn
    unfold PipeOutput.Play at hn
    by_cases h0 : fw = 0
    · rw [if_pos h0] at hn
      exact Except.noConfusion hn
    · rw [if_neg h0] at hn
      have : fw = n := Except.ok.inj hn
      omega
  · unfold PipeOutput.Play
    by_cases h0 : fw = 0
    · simp [h0]
    · simp [h0]

/-- Witness for C7 amended at scenario-S6 numbers plus a short pipe
write. -/
theorem C7_play_contract_witness :
    (∀ n, (AoOutput.Open 1000 afS16Stereo).1.Play 4096 true = Except.ok n →
        n ≤ 4096 ∧ (AoOutput.Open 1000 afS16Stereo).1.frame_size ∣ n) ∧
    ((AoOutput.Open 1000 afS16Stereo).1.Play 4096 true
        = Except.error PlayError.writeError ↔ true = false) ∧
    (∀ n, PipeOutput.Play 4096 3 = Except.ok n → n ≤ 4096) ∧
    (PipeOutput.Play 4096 3 = Except.error PlayError.writeError ↔ 3 = 0) :=
  C7_play_contract 1000 afS16Stereo 4096 3 true (by decide) (by decide)

/-- C8: after an ao Open with configured write_size W and negotiated
frame size F, the chunk bound is max(1, W / F) * F, and Play of an
aligned span of length L (with the backend accepting) submits and
returns exactly min(L, bound). -/
theorem C8_chunk_bound (w : Nat) (af : AudioFormat) (L : Nat)
    (_hch : 0 < af.channels)
    (_hal : (AoOutput.Open w af).1.frame_size ∣ L) :
    (AoOutput.Open w af).1.max_size
        = max 1 (w / (AoOutput.Open w af).1.frame_size)
            * (AoOutput.Open w af).1.frame_size ∧
    (AoOutput.Open w af).1.Play L true
        = Except.ok (min L (AoOutput.Open w af).1.max_size) := by
  constructor
  · simp only [AoOutput.Open]
    rw [Nat.max_comm]
  · have hrfl : (AoOutput.Open w af).1.Play L true
        = Except.ok (if L > (AoOutput.Open w af).1.max_size
            then (AoOutput.Open w af).1.max_size else L) := rfl
    rw [hrfl, trunc_eq_min]

/-- Witness for C8 at scenario S6: write_size 1000, S16 stereo, frame
size 4, chunk bound 1000; Play of 4096 bytes returns 1000. -/
theorem C8_chunk_bound_witness :
    (AoOutput.Open 1000 afS16Stereo).1.frame_size = 4 ∧
    (AoOutput.Open 1000 afS16Stereo).1.max_size = 1000 ∧
    ((AoOutput.Open 1000 afS16Stereo).1.max_size
        = max 1 (1000 / (AoOutput.Open 1000 afS16Stereo).1.frame_size)
            * (AoOutput.Open 1000 afS16Stereo).1.frame_size ∧
      (AoOutput.Open 1000 afS16Stereo).1.Play 4096 true
        = Except.ok (min 4096 (AoOutput.Open 1000 afS16Stereo).1.max_size)) ∧
    min 4096 (AoOutput.Open 1000 afS16Stereo).1.max_size = 1000 :=
  ⟨by decide, by decide,
   C8_chunk_bound 1000 afS16Stereo 4096 (by decide) (by decide), by decide⟩

/-- C10: the ao Open negotiation keeps S8 and S16 unchanged and rewrites
every other sample format to S16, so the negotiated format is always S8
or S16. -/
theorem C10_ao_format_negotiation (af : AudioFormat) :
    ((aoOpenFormat af).1.format = SampleFormat.s8 ∨
     (aoOpenFormat af).1.format = SampleFormat.s16) ∧
    (af.format = SampleFormat.s8 → (aoOpenFormat af).1 = af) ∧
    (af.format = SampleFormat.s16 → (aoOpenFormat af).1 = af) ∧
    (af.format ≠ SampleFormat.s8 ∧ af.format ≠ SampleFormat.s16 →
      (aoOpenFormat af).1 = { af with format := SampleFormat.s16 }) := by
  rcases af with ⟨sr, ch, fmt⟩
  cases fmt <;> simp [aoOpenFormat]

/-- The FLOAT request used by the C10 witness. -/
def afFloat : AudioFormat :=
  { sample_rate := 44100, channels := 2, format := SampleFormat.float }

/-- Witness for C10 at a FLOAT request: rewritten to S16 with rate and
channels preserved. -/
theorem C10_ao_format_negotiation_witness :
    ((aoOpenFormat afFloat).1.format = SampleFormat.s8 ∨
     (aoOpenFormat afFloat).1.format = SampleFormat.s16) ∧
    (afFloat.format = SampleFormat.s8 → (aoOpenFormat afFloat).1 = afFloat) ∧
    (afFloat.format = SampleFormat.s16 → (aoOpenFormat afFloat).1 = afFloat) ∧
    (afFloat.format ≠ SampleFormat.s8 ∧ afFloat.format ≠ SampleFormat.s16 →
      (aoOpenFormat afFloat).1 = { afFloat with format := SampleFormat.s16 }) :=
  C10_ao_format_negotiation afFloat

/-!  Whitespace handling of the ao options parser. -/

theorem stripLeft_ws_append (ws l : List Char)
    (h : ∀ c ∈ ws, isWS c = true) :
    stripLeft (ws ++ l) = stripLeft l := by
  induction ws with
  | nil => rfl
  | cons c rest ih =>
    have hc : isWS c = true := h c (List.mem_cons_self c rest)
    simp only [List.cons_append, stripLeft, hc, if_true]
    exact ih (fun x hx => h x (List.mem_cons_of_mem c hx))

theorem stripLeft_ws_nil (ws : List Char) (h : ∀ c ∈ ws, isWS c = true) :
    stripLeft ws = [] := by
  have hx := stripLeft_ws_append ws [] h
  simpa using hx

theorem stripRight_append_ws (l ws : List Char)
    (h : ∀ c ∈ ws, isWS c = true) :
    stripRight (l ++ ws) = stripRight l := by
  unfold stripRight
  rw [List.reverse_append, stripLeft_ws_append]
  intro c hc
  exact h c (List.mem_reverse.mp hc)

/-- Strip ignores whitespace wrapped around the whole field. -/
theorem strip_outer_ws (ws1 i ws2 : List Char)
    (h1 : ∀ c ∈ ws1, isWS c = true) (h2 : ∀ c ∈ ws2, isWS c = true) :
    strip (ws1 ++ i ++ ws2) = strip i := by
  unfold strip
  rw [List.append_assoc, stripLeft_ws_append ws1 (i ++ ws2) h1]
  induction i with
  | nil =>
    simp only [List.nil_append]
    rw [stripLeft_ws_nil ws2 h2]
    rfl
  | cons c rest ih =>
    by_cases hc : isWS c = true
    · simp only [List.cons_append, stripLeft, hc, if_true]
      exact ih
    · simp only [List.cons_append, stripLeft, hc, if_false]
      exact stripRight_append_ws (c :: rest) ws2 h2

/-- C9 counterexample: whitespace adjacent to the separator is not
stripped — the pair written as " a = b " yields the key "a " (trailing
space) and the value " b" (leading space), a different backend option
than the pair "a=b". -/
theorem C9_counterexample :
    parseOptions (" a = b ".toList)
      = some [("a ".toList, " b".toList)] ∧
    parseOptions ("a=b".toList) = some [("a".toList, "b".toList)] ∧
    parseOptions (" a = b ".toList) ≠ parseOptions ("a=b".toList) := by
  refine ⟨rfl, rfl, ?_⟩
  decide

/-- C9 amended: the parser tolerates whitespace around each whole
key=value pair (before the key and after the value), producing the same
backend option as the unpadded pair; whitespace next to the equals sign
is instead kept as part of the key or value. -/
theorem C9_outer_whitespace (ws1 i ws2 : List Char)
    (h1 : ∀ c ∈ ws1, isWS c = true) (h2 : ∀ c ∈ ws2, isWS c = true) :
    parsePair (ws1 ++ i ++ ws2) = parsePair i := by
  unfold parsePair
  rw [strip_outer_ws ws1 i ws2 h1 h2]

/-- Witness for C9 amended: a pair padded left and right parses like the
unpadded pair. -/
theorem C9_outer_whitespace_witness :
    parsePair (" ".toList ++ "a=b".toList ++ "  ".toList)
      = parsePair ("a=b".toList) :=
  C9_outer_whitespace (" ".toList) ("a=b".toList) ("  ".toList)
    (by decide) (by decide)
